import Mathlib

set_option maxRecDepth 8192

/-
Shallow embedding of the NKchess repository:
  * the rules engine and game state machine of the game-board component
    (src/unnamed/part_001: GameBoardComponent), and
  * the matchmaking / presence service (src/unnamed/part_000: MatchmakingService).
Pure functions are translated directly; methods reading component signals
(`this.board()`, `this.lastMove()`, ...) take those signals as parameters.
TypeScript `hasMoved?: boolean` is only ever observed through truthiness, so it
is modelled as a `Bool` with `false` standing for both `false` and `undefined`.
-/

inductive Player where
  | w
  | b
  deriving DecidableEq, Repr

inductive PieceType where
  | p
  | r
  | n
  | b
  | q
  | k
  deriving DecidableEq, Repr

structure Piece where
  type : PieceType
  color : Player
  hasMoved : Bool := false
  deriving DecidableEq, Repr

/-- Square = Piece | null. -/
abbrev Square := Option Piece

/-- Board = Square[][] (8x8 in every reachable state). -/
abbrev Board := List (List Square)

structure Pos where
  row : Int
  col : Int
  deriving DecidableEq, Repr

/-- Move = { from, to }.  `from` and `to` are reserved tokens in Lean, hence
`from'` / `to'`. -/
structure Move where
  from' : Pos
  to' : Pos
  deriving DecidableEq, Repr

/-- isValid(row, col): row >= 0 && row < 8 && col >= 0 && col < 8. -/
def isValid (row col : Int) : Bool :=
  decide (0 ≤ row ∧ row < 8 ∧ 0 ≤ col ∧ col < 8)

/-- board[row][col], totalised: out-of-range indices read as empty. -/
def bget (bd : Board) (row col : Int) : Square :=
  if isValid row col then ((bd[row.toNat]?).getD [])[col.toNat]?.getD none
  else none

/-- board[row][col] = v, totalised: out-of-range writes are dropped. -/
def bset (bd : Board) (row col : Int) (v : Square) : Board :=
  if isValid row col then bd.set row.toNat ((bd[row.toNat]?.getD []).set col.toNat v)
  else bd

/-- Well-formedness: an 8x8 grid, as every board built by the app is. -/
def BoardWF (bd : Board) : Prop :=
  bd.length = 8 ∧ ∀ i : Nat, i < 8 → ((bd[i]?).getD []).length = 8

instance : DecidablePred BoardWF := fun bd => by
  unfold BoardWF; infer_instance

/-- board[r][c]?.color === pl (undefined !== pl). -/
def sqColorIs (sq : Square) (pl : Player) : Bool :=
  match sq with
  | some pc => decide (pc.color = pl)
  | none => false

/-- board[r][c]?.color !== pl (undefined !== pl is true). -/
def sqColorNe (sq : Square) (pl : Player) : Bool :=
  match sq with
  | some pc => decide (pc.color ≠ pl)
  | none => true

/-- board[r][c]?.type === t. -/
def sqTypeIs (sq : Square) (t : PieceType) : Bool :=
  match sq with
  | some pc => decide (pc.type = t)
  | none => false

/-- board[r][c]?.hasMoved, as a truthiness test. -/
def sqHasMoved (sq : Square) : Bool :=
  match sq with
  | some pc => pc.hasMoved
  | none => false

/-- player === 'w' ? 'b' : 'w'. -/
def other : Player → Player
  | .w => .b
  | .b => .w

def knightDirs : List (Int × Int) :=
  [(-2,-1),(-2,1),(-1,-2),(-1,2),(1,-2),(1,2),(2,-1),(2,1)]

def slidingDirs : List (Int × Int) :=
  [(-1,0),(1,0),(0,-1),(0,1),(-1,-1),(-1,1),(1,-1),(1,1)]

def kingDirs : List (Int × Int) :=
  [(-1,-1),(-1,0),(-1,1),(0,-1),(0,1),(1,-1),(1,0),(1,1)]

/--
One sliding-attack ray of isPositionUnderAttack: walk from (r, c) in direction
(dr, dc) while on the board; the first occupied square stops the ray and
attacks iff it holds an opposing queen, or rook on a rook direction, or bishop
on a bishop direction.  The while loop visits at most 8 squares, so fuel 8
makes the recursion equal to the source's while loop.
-/
def rayAttack (bd : Board) (opp : Player) (dr dc : Int) : Int → Int → Nat → Bool
  | _, _, 0 => false
  | r, c, fuel+1 =>
    if isValid r c then
      match bget bd r c with
      | some piece =>
        if piece.color = opp then
          decide (piece.type = .q)
          || (decide (piece.type = .r) && decide (dr = 0 ∨ dc = 0))
          || (decide (piece.type = .b) && decide (dr ≠ 0 ∧ dc ≠ 0))
        else false
      | none => rayAttack bd opp dr dc (r+dr) (c+dc) fuel
    else false

/-- isPositionUnderAttack(pos, attackedPlayer, board). -/
def isPositionUnderAttack (pos : Pos) (attackedPlayer : Player) (bd : Board) : Bool :=
  let opp := other attackedPlayer
  let row := pos.row
  let col := pos.col
  let pawnDir : Int := if attackedPlayer = .w then -1 else 1
  (isValid (row+pawnDir) (col-1) && sqTypeIs (bget bd (row+pawnDir) (col-1)) .p
     && sqColorIs (bget bd (row+pawnDir) (col-1)) opp)
  || (isValid (row+pawnDir) (col+1) && sqTypeIs (bget bd (row+pawnDir) (col+1)) .p
     && sqColorIs (bget bd (row+pawnDir) (col+1)) opp)
  || knightDirs.any (fun d =>
       isValid (row+d.1) (col+d.2) && sqTypeIs (bget bd (row+d.1) (col+d.2)) .n
         && sqColorIs (bget bd (row+d.1) (col+d.2)) opp)
  || slidingDirs.any (fun d => rayAttack bd opp d.1 d.2 (row+d.1) (col+d.2) 8)
  || kingDirs.any (fun d =>
       isValid (row+d.1) (col+d.2) && sqTypeIs (bget bd (row+d.1) (col+d.2)) .k
         && sqColorIs (bget bd (row+d.1) (col+d.2)) opp)

/-- findKing(player, board): first matching square in row-major order. -/
def findKing (pl : Player) (bd : Board) : Option Pos :=
  (List.range 8).findSome? fun r =>
    (List.range 8).findSome? fun c =>
      if sqTypeIs (bget bd (r : Int) (c : Int)) .k
          && sqColorIs (bget bd (r : Int) (c : Int)) pl
      then some ⟨(r : Int), (c : Int)⟩ else none

/-- isKingInCheck(player, board); a missing king counts as in check. -/
def isKingInCheck (pl : Player) (bd : Board) : Bool :=
  match findKing pl bd with
  | some kp => isPositionUnderAttack kp pl bd
  | none => true

/--
One sliding-move ray of generatePseudoLegalMoves' addSlidingMoves: collect
empty squares along the ray; the first occupied square is included iff it
holds an opposing piece.  Fuel 8 makes the recursion equal to the while loop.
-/
def slideRay (bd : Board) (pl : Player) (dr dc : Int) : Int → Int → Nat → List Pos
  | _, _, 0 => []
  | r, c, fuel+1 =>
    if isValid r c then
      match bget bd r c with
      | some target => if target.color ≠ pl then [⟨r, c⟩] else []
      | none => ⟨r, c⟩ :: slideRay bd pl dr dc (r+dr) (c+dc) fuel
    else []

/-- addSlidingMoves(directions) for the piece of color pl at pos. -/
def addSlidingMoves (bd : Board) (pl : Player) (pos : Pos) (dirs : List (Int × Int)) : List Pos :=
  dirs.flatMap fun d => slideRay bd pl d.1 d.2 (pos.row+d.1) (pos.col+d.2) 8

/--
generatePseudoLegalMoves(pos, board).  The source additionally reads the
`lastMove` signal for en passant; it is passed here as `lm`.
-/
def generatePseudoLegalMoves (pos : Pos) (bd : Board) (lm : Option Move) : List Pos :=
  match bget bd pos.row pos.col with
  | none => []
  | some piece =>
    match piece.type with
    | .p =>
      let dir : Int := if piece.color = .w then -1 else 1
      let startRow : Int := if piece.color = .w then 6 else 1
      let fwd :=
        if isValid (pos.row+dir) pos.col && (bget bd (pos.row+dir) pos.col).isNone then
          ⟨pos.row+dir, pos.col⟩ ::
            (if pos.row = startRow ∧ (bget bd (pos.row+2*dir) pos.col).isNone then
              [⟨pos.row+2*dir, pos.col⟩] else [])
        else []
      let caps := ([-1, 1] : List Int).flatMap fun side =>
        if isValid (pos.row+dir) (pos.col+side)
            && (bget bd (pos.row+dir) (pos.col+side)).isSome
            && sqColorNe (bget bd (pos.row+dir) (pos.col+side)) piece.color then
          [⟨pos.row+dir, pos.col+side⟩]
        else []
      let ep :=
        match lm with
        | none => []
        | some last =>
          if sqTypeIs (bget bd last.to'.row last.to'.col) .p
              && decide ((last.from'.row - last.to'.row).natAbs = 2)
              && decide (pos.row = last.to'.row)
              && decide ((pos.col - last.to'.col).natAbs = 1) then
            [⟨pos.row+dir, last.to'.col⟩]
          else []
      fwd ++ caps ++ ep
    | .r => addSlidingMoves bd piece.color pos [(-1,0),(1,0),(0,-1),(0,1)]
    | .b => addSlidingMoves bd piece.color pos [(-1,-1),(-1,1),(1,-1),(1,1)]
    | .q => addSlidingMoves bd piece.color pos
        [(-1,-1),(-1,1),(1,-1),(1,1),(-1,0),(1,0),(0,-1),(0,1)]
    | .n => knightDirs.flatMap fun d =>
        if isValid (pos.row+d.1) (pos.col+d.2)
            && sqColorNe (bget bd (pos.row+d.1) (pos.col+d.2)) piece.color then
          [⟨pos.row+d.1, pos.col+d.2⟩]
        else []
    | .k =>
      let adj := kingDirs.flatMap fun d =>
        if isValid (pos.row+d.1) (pos.col+d.2)
            && sqColorNe (bget bd (pos.row+d.1) (pos.col+d.2)) piece.color then
          [⟨pos.row+d.1, pos.col+d.2⟩]
        else []
      let castles :=
        if !piece.hasMoved && !isKingInCheck piece.color bd then
          (if (bget bd pos.row 5).isNone && (bget bd pos.row 6).isNone
              && sqTypeIs (bget bd pos.row 7) .r && !sqHasMoved (bget bd pos.row 7)
              && !isPositionUnderAttack ⟨pos.row, 5⟩ piece.color bd
              && !isPositionUnderAttack ⟨pos.row, 6⟩ piece.color bd then
            [⟨pos.row, 6⟩] else [])
          ++ (if (bget bd pos.row 1).isNone && (bget bd pos.row 2).isNone
              && (bget bd pos.row 3).isNone
              && sqTypeIs (bget bd pos.row 0) .r && !sqHasMoved (bget bd pos.row 0)
              && !isPositionUnderAttack ⟨pos.row, 2⟩ piece.color bd
              && !isPositionUnderAttack ⟨pos.row, 3⟩ piece.color bd then
            [⟨pos.row, 2⟩] else [])
        else []
      adj ++ castles

/-- simulateMove(move, board). -/
def simulateMove (m : Move) (bd : Board) : Board :=
  match bget bd m.from'.row m.from'.col with
  | none => bd
  | some pieceToMove =>
    let b1 := bset (bset bd m.to'.row m.to'.col (some pieceToMove)) m.from'.row m.from'.col none
    let b2 :=
      if pieceToMove.type = .p ∧ m.from'.col ≠ m.to'.col
          ∧ (bget bd m.to'.row m.to'.col).isNone then
        bset b1 m.from'.row m.to'.col none
      else b1
    if pieceToMove.type = .k ∧ (m.from'.col - m.to'.col).natAbs = 2 then
      let rookCol : Int := if m.to'.col > m.from'.col then 7 else 0
      let newRookCol : Int := if m.to'.col > m.from'.col then 5 else 3
      match bget b2 m.from'.row rookCol with
      | some rook =>
        bset (bset b2 m.from'.row newRookCol (some rook)) m.from'.row rookCol none
      | none => b2
    else b2

/--
The board transformation of movePiece(from, to) (the signal updates and the
promotion sub-state branching are modelled separately; the board value is the
same in both branches).  JavaScript mutates the moved piece object in place;
here the mutated value is computed first and used wherever the object is
referenced afterwards.
-/
def movePieceBoard (m : Move) (bd : Board) : Board :=
  match bget bd m.from'.row m.from'.col with
  | none => bd
  | some piece0 =>
    let pieceToMove :=
      if (piece0.type = .k ∨ piece0.type = .r) ∧ ¬piece0.hasMoved then
        { piece0 with hasMoved := true }
      else piece0
    let b1 := bset bd m.from'.row m.from'.col (some pieceToMove)
    let b2 :=
      if pieceToMove.type = .k ∧ (m.from'.col - m.to'.col).natAbs = 2 then
        let rookCol : Int := if m.to'.col > m.from'.col then 7 else 0
        let newRookCol : Int := if m.to'.col > m.from'.col then 5 else 3
        match bget b1 m.from'.row rookCol with
        | some rook =>
          bset (bset b1 m.from'.row newRookCol (some { rook with hasMoved := true }))
            m.from'.row rookCol none
        | none => b1
      else b1
    let b3 :=
      if pieceToMove.type = .p ∧ m.from'.col ≠ m.to'.col
          ∧ (bget b2 m.to'.row m.to'.col).isNone then
        bset b2 m.from'.row m.to'.col none
      else b2
    bset (bset b3 m.to'.row m.to'.col (some pieceToMove)) m.from'.row m.from'.col none

/-- getAllLegalMovesForPlayer(player, board), with the lastMove signal `lm`. -/
def getAllLegalMovesForPlayer (player : Player) (bd : Board) (lm : Option Move) : List Move :=
  (List.range 8).flatMap fun r =>
    (List.range 8).flatMap fun c =>
      if sqColorIs (bget bd (r : Int) (c : Int)) player then
        ((generatePseudoLegalMoves ⟨(r : Int), (c : Int)⟩ bd lm).filter fun dst =>
            !isKingInCheck player (simulateMove ⟨⟨(r : Int), (c : Int)⟩, dst⟩ bd)).map
          fun dst => ⟨⟨(r : Int), (c : Int)⟩, dst⟩
      else []

/--
The list computed by calculateLegalMoves(pos) and written to the `legalMoves`
signal; `bd`, `cur` and `lm` are the board, currentPlayer and lastMove signals.
-/
def calculateLegalMoves (pos : Pos) (bd : Board) (cur : Player) (lm : Option Move) : List Pos :=
  match bget bd pos.row pos.col with
  | none => []
  | some piece =>
    if piece.color ≠ cur then []
    else (generatePseudoLegalMoves pos bd lm).filter fun dst =>
      !isKingInCheck piece.color (simulateMove ⟨pos, dst⟩ bd)

/-- createInitialBoard(). -/
def createInitialBoard : Board :=
  let base : Board := List.replicate 8 (List.replicate 8 (none : Square))
  let backRank : List PieceType := [.r, .n, .b, .q, .k, .b, .n, .r]
  (List.range 8).foldl
    (fun bd (i : Nat) =>
      let bt := (backRank[i]?).getD .p   -- i < 8, so the default is never used
      let b1 := bset bd 1 (i : Int) (some { type := .p, color := .b })
      let b2 := bset b1 0 (i : Int) (some { type := bt, color := .b, hasMoved := false })
      let b3 := bset b2 6 (i : Int) (some { type := .p, color := .w })
      bset b3 7 (i : Int) (some { type := bt, color := .w, hasMoved := false }))
    base

/-- gameState values of the game-board component and of GameData. -/
inductive GState where
  | playing
  | check
  | checkmate
  | stalemate
  | promotion
  deriving DecidableEq, Repr

/--
The pure core of updateGameStateAfterMove(board, lastMove): the new
(gameState, winner) pair computed for the side about to move, where `cur` is
the currentPlayer signal and `lm` the lastMove signal (set to the just-made
move before this method runs, and used by en-passant generation inside
getAllLegalMovesForPlayer).
-/
def updateGameStateCore (cur : Player) (bd : Board) (lm : Option Move) :
    GState × Option Player :=
  let newPlayer := other cur
  let allLegalMoves := getAllLegalMovesForPlayer newPlayer bd lm
  if allLegalMoves.length = 0 then
    if isKingInCheck newPlayer bd then (.checkmate, some cur)
    else (.stalemate, none)
  else
    (if isKingInCheck newPlayer bd then .check else .playing, none)

/-- The game-relevant signals of GameBoardComponent. -/
structure GBState where
  board : Board
  currentPlayer : Player
  gameState : GState
  winner : Option Player
  promotionSquare : Option Pos
  lastMove : Option Move
  deriving DecidableEq, Repr

/--
updateGameStateAfterMove(board, lastMove) in local mode: writes the new board,
player, gameState, winner and lastMove signals.  `lm` is the move passed in
(null only if a promotion was resolved before any move was recorded).
-/
def updateGameStateAfterMove (st : GBState) (bd : Board) (lm : Option Move) : GBState :=
  let res := updateGameStateCore st.currentPlayer bd lm
  { st with
    board := bd
    currentPlayer := other st.currentPlayer
    gameState := res.1
    winner := res.2
    lastMove := lm }

/--
handlePromotion(pieceType) in local mode: requires a pending promotion square
holding a piece; replaces it by a new piece of the chosen kind and the original
piece's color (with no hasMoved flag), clears promotionSquare, and runs
updateGameStateAfterMove on the new board with the recorded lastMove.
-/
def handlePromotion (st : GBState) (pieceType : PieceType) : GBState :=
  match st.promotionSquare with
  | none => st
  | some square =>
    match bget st.board square.row square.col with
    | none => st
    | some originalPawn =>
      let newBoard := bset st.board square.row square.col
        (some { type := pieceType, color := originalPawn.color })
      updateGameStateAfterMove { st with promotionSquare := none } newBoard st.lastMove

/- ---------- Matchmaking service (src/unnamed/part_000) ---------- -/

/-- User = { username, deviceId }. -/
structure User where
  username : String
  deviceId : String
  deriving DecidableEq, Repr

/-- GameData: the replicated snapshot (opponentLeft? absent ≡ false). -/
structure GameData where
  board : Board
  currentPlayer : Player
  gameState : GState
  winner : Option Player
  lastMove : Option Move
  promotionSquare : Option Pos
  opponentLeft : Bool := false
  deriving DecidableEq, Repr

/-- Room.status values. -/
inductive RStatus where
  | waiting
  | playing
  | finished
  deriving DecidableEq, Repr

/-- Room: one slot of the rooms directory (absent fields are `none`). -/
structure Room where
  player1 : Option User := none
  player2 : Option User := none
  last_active_p1 : Option Int := none
  last_active_p2 : Option Int := none
  status : RStatus := .waiting
  gameData : Option GameData := none
  deriving DecidableEq, Repr

/-- ACTIVITY_TIMEOUT = 30000 ms. -/
def ACTIVITY_TIMEOUT : Int := 30000

/-- MAX_ROOMS = 20. -/
def MAX_ROOMS : Nat := 20

/--
findMatch case 1 at one slot: `!room || !room.player1 ||
(now - (room.last_active_p1 ?? 0)) > ACTIVITY_TIMEOUT`.
-/
def claimable (room : Option Room) (now : Int) : Bool :=
  match room with
  | none => true
  | some rm =>
    match rm.player1 with
    | none => true
    | some _ => decide (now - rm.last_active_p1.getD 0 > ACTIVITY_TIMEOUT)

/--
findMatch case 2 at one slot: `room.status === 'waiting' && room.player1 &&
!room.player2 && room.player1.deviceId !== currentUser.deviceId`.
-/
def joinable (room : Option Room) (user : User) : Bool :=
  match room with
  | none => false
  | some rm =>
    decide (rm.status = .waiting)
    && rm.player1.isSome
    && rm.player2.isNone
    && (match rm.player1 with
        | some p1 => decide (p1.deviceId ≠ user.deviceId)
        | none => false)

/-- The gameData written by createRoom. -/
def initialGameData : GameData :=
  { board := createInitialBoard
    currentPlayer := .w
    gameState := .playing
    winner := none
    lastMove := none
    promotionSquare := none }

/-- The full room record written (full overwrite) by createRoom(roomId, user). -/
def createRoomRecord (user : User) (now : Int) : Room :=
  { player1 := some user
    last_active_p1 := some now
    status := .waiting
    gameData := some initialGameData }

/-- The fields merged into the room by joinRoom(roomId, room, user). -/
structure JoinUpdate where
  player2 : User
  last_active_p2 : Int
  status : RStatus
  deriving DecidableEq, Repr

/--
Outcome of findMatch: claim a slot as white (writing a full fresh room),
join a slot as black (merging the second-occupant fields), or fail with the
capacity error ('Server Sedang Penuh coba lagi nanti') without writing.
-/
inductive MatchOutcome where
  | claimed (slot : Nat) (room : Room)
  | joined (slot : Nat) (upd : JoinUpdate)
  | capacityError
  deriving DecidableEq, Repr

/-- The scan loop of findMatch over the remaining slot indices. -/
def findMatchAux (rooms : Nat → Option Room) (user : User) (now : Int) :
    List Nat → MatchOutcome
  | [] => .capacityError
  | i :: rest =>
    if claimable (rooms i) now then .claimed i (createRoomRecord user now)
    else if joinable (rooms i) user then .joined i ⟨user, now, .playing⟩
    else findMatchAux rooms user now rest

/--
findMatch() over the room directory `rooms` (the value stored at
`rooms/nk-i` for each i), for the logged-in `user` at time `now`:
scan slots nk-1 .. nk-20 in order.
-/
def findMatch (rooms : Nat → Option Room) (user : User) (now : Int) : MatchOutcome :=
  findMatchAux rooms user now (List.range' 1 MAX_ROOMS)

/--
First-fit characterisation of the scan (used to state what findMatch does):
take the first slot in nk-1 .. nk-20 that is claimable or joinable; claim it
if claimable, otherwise join it; fail with the capacity error if none exists.
-/
def findMatchFirstFit (rooms : Nat → Option Room) (user : User) (now : Int) : MatchOutcome :=
  match (List.range' 1 MAX_ROOMS).find? (fun i => claimable (rooms i) now || joinable (rooms i) user) with
  | some i =>
    if claimable (rooms i) now then .claimed i (createRoomRecord user now)
    else .joined i ⟨user, now, .playing⟩
  | none => .capacityError

/--
handleOpponentDisconnect(): if the shared gameData already has a winner the
call is a no-op; otherwise it merges winner := own color,
gameState := 'checkmate', opponentLeft := true into the shared gameData.
`myColor` is the playerColor signal.
-/
def handleOpponentDisconnect (gd : GameData) (myColor : Player) : GameData :=
  if gd.winner.isSome then gd
  else { gd with winner := some myColor, gameState := .checkmate, opponentLeft := true }

/--
checkOpponentPresence(room) and its call to handleOpponentDisconnect, as the
transformation of the shared gameData `gd` observed by the peer whose color is
`myColor` at time `now`.  The JavaScript truthiness test on the opponent's
last-active timestamp treats an absent field and 0 as falsy.
-/
def checkOpponentPresence (room : Room) (myColor : Player) (gd : GameData) (now : Int) :
    GameData :=
  let opponentLastActive := if myColor = .w then room.last_active_p2 else room.last_active_p1
  let truthy := match opponentLastActive with
    | some t => decide (t ≠ 0)
    | none => false
  if decide (room.status = .playing) && truthy
      && decide (now - opponentLastActive.getD 0 > ACTIVITY_TIMEOUT) then
    handleOpponentDisconnect gd myColor
  else gd

/--
resignGame(): merges winner := opponent color, gameState := 'checkmate' into
the shared gameData, unconditionally.
-/
def resignGame (gd : GameData) (myColor : Player) : GameData :=
  { gd with winner := some (other myColor), gameState := .checkmate }

/- ---------- Board access lemmas ---------- -/

theorem isValid_iff (r c : Int) : isValid r c = true ↔ 0 ≤ r ∧ r < 8 ∧ 0 ≤ c ∧ c < 8 := by
  simp [isValid]

theorem bget_eq_none_of_invalid (bd : Board) (r c : Int) (h : ¬ isValid r c = true) :
    bget bd r c = none := by
  simp [bget, h]

theorem bset_of_invalid (bd : Board) (r c : Int) (v : Square) (h : ¬ isValid r c = true) :
    bset bd r c v = bd := by
  simp [bset, h]

theorem isValid_of_bget_some (bd : Board) (r c : Int) (pc : Piece)
    (h : bget bd r c = some pc) : isValid r c = true := by
  by_cases hv : isValid r c = true
  · exact hv
  · rw [bget_eq_none_of_invalid bd r c hv] at h
    cases h

theorem boardWF_bset (bd : Board) (r c : Int) (v : Square) (h : BoardWF bd) :
    BoardWF (bset bd r c v) := by
  unfold BoardWF at *
  unfold bset
  split
  · rename_i hv
    rw [isValid_iff] at hv
    refine ⟨by simpa using h.1, ?_⟩
    intro i hi
    rw [List.getElem?_set]
    split
    · rename_i heq
      have hlt : r.toNat < bd.length := by omega
      simp only [hlt, if_true, Option.getD_some]
      rw [List.length_set]
      exact heq ▸ h.2 i hi
    · exact h.2 i hi
  · exact h

theorem bget_bset (bd : Board) (r c : Int) (v : Square) (h : BoardWF bd) (r' c' : Int) :
    bget (bset bd r c v) r' c' =
      if r = r' ∧ c = c' ∧ isValid r c = true then v else bget bd r' c' := by
  obtain ⟨hlen, hrow⟩ := h
  by_cases hv : isValid r c = true
  · by_cases hv' : isValid r' c' = true
    · have hvv := (isValid_iff r c).mp hv
      have hvv' := (isValid_iff r' c').mp hv'
      unfold bget bset
      simp only [hv, hv', if_true]
      rw [List.getElem?_set]
      by_cases hr : r = r'
      · subst hr
        simp only [if_pos rfl]
        have hlt : r.toNat < bd.length := by omega
        simp only [hlt, if_true, Option.getD_some]
        rw [List.getElem?_set]
        by_cases hc : c = c'
        · subst hc
          have hclen : c.toNat < ((bd[r.toNat]?).getD []).length := by
            rw [hrow r.toNat (by omega)]; omega
          simp [hclen, hv]
        · have hcn : c.toNat ≠ c'.toNat := fun hh => hc (by omega)
          simp [hcn, hc]
      · have hrn : r.toNat ≠ r'.toNat := fun hh => hr (by omega)
        simp [hrn, hr]
    · have h1 : bget bd r' c' = none := bget_eq_none_of_invalid bd r' c' hv'
      have h2 : bget (bset bd r c v) r' c' = none :=
        bget_eq_none_of_invalid _ r' c' hv'
      rw [h1, h2]
      split
      · rename_i hcond
        exact absurd (hcond.1 ▸ hcond.2.1 ▸ hv) hv'
      · rfl
  · rw [bset_of_invalid bd r c v hv]
    split
    · rename_i hcond
      exact absurd hcond.2.2 hv
    · rfl

/- ---------- Claim theorems ---------- -/

set_option maxHeartbeats 4000000

/--
C8: For the standard starting board produced by createInitialBoard, with White
to move and no last move, getAllLegalMovesForPlayer('w', board) returns
exactly 20 moves.
-/
theorem c8_initial_white_moves :
    (getAllLegalMovesForPlayer .w createInitialBoard none).length = 20 := by
  decide

/--
The post-move transition rule of the claim, written from its words: with T the
side about to move next, empty legal-move list and check means checkmate with
the just-moved side S as winner; empty without check means stalemate with no
winner; non-empty means check exactly when T's king is attacked, else playing.
-/
def postMoveStatusSpec (S : Player) (B : Board) (lm : Option Move) :
    GState × Option Player :=
  let T := other S
  if getAllLegalMovesForPlayer T B lm = [] then
    if isKingInCheck T B then (.checkmate, some S) else (.stalemate, none)
  else
    (if isKingInCheck T B then .check else .playing, none)

/--
C2: after any completed move (updateGameStateAfterMove with currentPlayer = S,
board B and just-made move recorded in the lastMove signal), the new
(gameState, winner) pair follows the claim's transition rule exactly.
-/
theorem c2_state_transition (S : Player) (B : Board) (lm : Option Move) :
    updateGameStateCore S B lm = postMoveStatusSpec S B lm := by
  unfold updateGameStateCore postMoveStatusSpec
  simp only [List.length_eq_zero]

/--
C1: every move returned by getAllLegalMovesForPlayer, and every destination
returned by calculateLegalMoves, when simulated via simulateMove, yields a
position in which the moving side's king is not in check per isKingInCheck.
-/
theorem c1_legal_moves_safe (bd : Board) (pl : Player) (lm : Option Move) :
    (∀ m : Move, m ∈ getAllLegalMovesForPlayer pl bd lm →
      isKingInCheck pl (simulateMove m bd) = false)
    ∧ (∀ pos dst : Pos, dst ∈ calculateLegalMoves pos bd pl lm →
      isKingInCheck pl (simulateMove ⟨pos, dst⟩ bd) = false) := by
  constructor
  · intro m hm
    unfold getAllLegalMovesForPlayer at hm
    simp only [List.mem_flatMap, List.mem_range] at hm
    obtain ⟨r, hr, c, hc, hm⟩ := hm
    split at hm
    · simp only [List.mem_map, List.mem_filter] at hm
      obtain ⟨dst, ⟨hmem, hfil⟩, rfl⟩ := hm
      simpa using hfil
    · cases hm
  · intro pos dst hd
    unfold calculateLegalMoves at hd
    split at hd
    · cases hd
    · rename_i piece hpc
      split at hd
      · cases hd
      · rename_i hcol
        simp only [Decidable.not_not] at hcol
        simp only [List.mem_filter] at hd
        have := hd.2
        rw [hcol] at this
        simpa using this

/-- A minimal 8x8 board with only the two kings, used as concrete input. -/
def twoKingsBoard : Board :=
  bset (bset (List.replicate 8 (List.replicate 8 (none : Square))) 7 4
    (some { type := .k, color := .w, hasMoved := false })) 0 4
    (some { type := .k, color := .b, hasMoved := false })

/-- Witness for C1 at a concrete input. -/
theorem c1_legal_moves_safe_witness :
    ((⟨⟨7,4⟩,⟨7,3⟩⟩ : Move) ∈ getAllLegalMovesForPlayer .w twoKingsBoard none
      ∧ isKingInCheck .w (simulateMove ⟨⟨7,4⟩,⟨7,3⟩⟩ twoKingsBoard) = false)
    ∧ ((⟨7,3⟩ : Pos) ∈ calculateLegalMoves ⟨7,4⟩ twoKingsBoard .w none
      ∧ isKingInCheck .w (simulateMove ⟨⟨7,4⟩,⟨7,3⟩⟩ twoKingsBoard) = false) := by
  refine ⟨⟨by decide, ?_⟩, ⟨by decide, ?_⟩⟩
  · exact (c1_legal_moves_safe twoKingsBoard .w none).1 ⟨⟨7,4⟩,⟨7,3⟩⟩ (by decide)
  · exact (c1_legal_moves_safe twoKingsBoard .w none).2 ⟨7,4⟩ ⟨7,3⟩ (by decide)

theorem castleK_mem (bd : Board) (lm : Option Move) (r : Int) (cpl : Player) (hm : Bool)
    (hk : bget bd r 4 = some { type := .k, color := cpl, hasMoved := hm }) :
    ((⟨r, 6⟩ : Pos) ∈ generatePseudoLegalMoves ⟨r, 4⟩ bd lm ↔
      (hm = false
       ∧ isKingInCheck cpl bd = false
       ∧ bget bd r 5 = none ∧ bget bd r 6 = none
       ∧ sqTypeIs (bget bd r 7) .r = true ∧ sqHasMoved (bget bd r 7) = false
       ∧ isPositionUnderAttack ⟨r,5⟩ cpl bd = false
       ∧ isPositionUnderAttack ⟨r,6⟩ cpl bd = false)) := by
  unfold generatePseudoLegalMoves
  rw [hk]
  simp only [List.mem_append, List.mem_flatMap, kingDirs, List.mem_cons, List.mem_singleton,
    List.not_mem_nil, or_false]
  constructor
  · intro h
    rcases h with h | h
    · exfalso
      obtain ⟨d, hd, hmem⟩ := h
      rcases hd with rfl | rfl | rfl | rfl | rfl | rfl | rfl | rfl
      all_goals
        split at hmem
        · simp only [List.mem_singleton, Pos.mk.injEq] at hmem
          omega
        · simp at hmem
    · split at h
      · rename_i houter
        simp only [Bool.and_eq_true, Bool.not_eq_true'] at houter
        rw [List.mem_append] at h
        rcases h with h | h
        · split at h
          · rename_i hcond
            simp only [Bool.and_eq_true, Bool.not_eq_true',
              Option.isNone_iff_eq_none] at hcond
            exact ⟨houter.1, houter.2, hcond.1.1.1.1.1, hcond.1.1.1.1.2,
              hcond.1.1.1.2, hcond.1.1.2, hcond.1.2, hcond.2⟩
          · simp at h
        · split at h
          · simp only [List.mem_singleton, Pos.mk.injEq] at h
            omega
          · simp at h
      · simp at h
  · rintro ⟨h1, h2, h5, h6, h7t, h7m, ha5, ha6⟩
    right
    have houter : (!hm && !isKingInCheck cpl bd) = true := by
      simp [h1, h2]
    rw [if_pos houter, List.mem_append]
    left
    have hcond : ((bget bd r 5).isNone && (bget bd r 6).isNone
        && sqTypeIs (bget bd r 7) .r && !sqHasMoved (bget bd r 7)
        && !isPositionUnderAttack ⟨r, 5⟩ cpl bd
        && !isPositionUnderAttack ⟨r, 6⟩ cpl bd) = true := by
      simp [h5, h6, h7t, h7m, ha5, ha6]
    rw [if_pos hcond]
    simp

theorem castleQ_mem (bd : Board) (lm : Option Move) (r : Int) (cpl : Player) (hm : Bool)
    (hk : bget bd r 4 = some { type := .k, color := cpl, hasMoved := hm }) :
    ((⟨r, 2⟩ : Pos) ∈ generatePseudoLegalMoves ⟨r, 4⟩ bd lm ↔
      (hm = false
       ∧ isKingInCheck cpl bd = false
       ∧ bget bd r 1 = none ∧ bget bd r 2 = none ∧ bget bd r 3 = none
       ∧ sqTypeIs (bget bd r 0) .r = true ∧ sqHasMoved (bget bd r 0) = false
       ∧ isPositionUnderAttack ⟨r,2⟩ cpl bd = false
       ∧ isPositionUnderAttack ⟨r,3⟩ cpl bd = false)) := by
  unfold generatePseudoLegalMoves
  rw [hk]
  simp only [List.mem_append, List.mem_flatMap, kingDirs, List.mem_cons, List.mem_singleton,
    List.not_mem_nil, or_false]
  constructor
  · intro h
    rcases h with h | h
    · exfalso
      obtain ⟨d, hd, hmem⟩ := h
      rcases hd with rfl | rfl | rfl | rfl | rfl | rfl | rfl | rfl
      all_goals
        split at hmem
        · simp only [List.mem_singleton, Pos.mk.injEq] at hmem
          omega
        · simp at hmem
    · split at h
      · rename_i houter
        simp only [Bool.and_eq_true, Bool.not_eq_true'] at houter
        rw [List.mem_append] at h
        rcases h with h | h
        · split at h
          · simp only [List.mem_singleton, Pos.mk.injEq] at h
            omega
          · simp at h
        · split at h
          · rename_i hcond
            simp only [Bool.and_eq_true, Bool.not_eq_true',
              Option.isNone_iff_eq_none] at hcond
            exact ⟨houter.1, houter.2, hcond.1.1.1.1.1.1, hcond.1.1.1.1.1.2,
              hcond.1.1.1.1.2, hcond.1.1.1.2, hcond.1.1.2, hcond.1.2, hcond.2⟩
          · simp at h
      · simp at h
  · rintro ⟨h1, h2, hc1, hc2, hc3, h0t, h0m, ha2, ha3⟩
    right
    have houter : (!hm && !isKingInCheck cpl bd) = true := by
      simp [h1, h2]
    rw [if_pos houter, List.mem_append]
    right
    have hcond : ((bget bd r 1).isNone && (bget bd r 2).isNone && (bget bd r 3).isNone
        && sqTypeIs (bget bd r 0) .r && !sqHasMoved (bget bd r 0)
        && !isPositionUnderAttack ⟨r, 2⟩ cpl bd
        && !isPositionUnderAttack ⟨r, 3⟩ cpl bd) = true := by
      simp [hc1, hc2, hc3, h0t, h0m, ha2, ha3]
    rw [if_pos hcond]
    simp

/--
C3: for every board with a king on its home column (column 4 of row r), the
kingside castling move (to column 6) is generated if and only if: the king has
never moved, the relevant rook is present and has never moved, the squares
between them are empty, the crossed and landing squares are not attacked, and
the king is not currently in check — and likewise the queenside castling move
(to column 2) with its own rook, between-squares and transit squares.
Negating any single precondition therefore removes the castling move.
-/
theorem c3_castling_iff (bd : Board) (lm : Option Move) (r : Int) (cpl : Player) (hm : Bool)
    (hk : bget bd r 4 = some { type := .k, color := cpl, hasMoved := hm }) :
    ((⟨r, 6⟩ : Pos) ∈ generatePseudoLegalMoves ⟨r, 4⟩ bd lm ↔
      (hm = false
       ∧ isKingInCheck cpl bd = false
       ∧ bget bd r 5 = none ∧ bget bd r 6 = none
       ∧ sqTypeIs (bget bd r 7) .r = true ∧ sqHasMoved (bget bd r 7) = false
       ∧ isPositionUnderAttack ⟨r,5⟩ cpl bd = false
       ∧ isPositionUnderAttack ⟨r,6⟩ cpl bd = false))
    ∧ ((⟨r, 2⟩ : Pos) ∈ generatePseudoLegalMoves ⟨r, 4⟩ bd lm ↔
      (hm = false
       ∧ isKingInCheck cpl bd = false
       ∧ bget bd r 1 = none ∧ bget bd r 2 = none ∧ bget bd r 3 = none
       ∧ sqTypeIs (bget bd r 0) .r = true ∧ sqHasMoved (bget bd r 0) = false
       ∧ isPositionUnderAttack ⟨r,2⟩ cpl bd = false
       ∧ isPositionUnderAttack ⟨r,3⟩ cpl bd = false)) :=
  ⟨castleK_mem bd lm r cpl hm hk, castleQ_mem bd lm r cpl hm hk⟩

/-- A board where White may castle kingside: king e1, rook h1, black king a8. -/
def castleBoard : Board :=
  bset (bset (bset (List.replicate 8 (List.replicate 8 (none : Square))) 7 4
    (some { type := .k, color := .w, hasMoved := false })) 7 7
    (some { type := .r, color := .w, hasMoved := false })) 0 0
    (some { type := .k, color := .b, hasMoved := false })

/-- Witness for C3 at a concrete input: on castleBoard all five kingside
preconditions hold and the kingside castling move is generated. -/
theorem c3_castling_iff_witness :
    bget castleBoard 7 4 = some { type := .k, color := .w, hasMoved := false }
    ∧ (⟨7, 6⟩ : Pos) ∈ generatePseudoLegalMoves ⟨7, 4⟩ castleBoard none :=
  ⟨by decide,
   (c3_castling_iff castleBoard none 7 .w false (by decide)).1.mpr (by decide)⟩

theorem gen_pawn_shape (bd : Board) (lm : Option Move) (pos : Pos) (c : Player) (hmv : Bool)
    (dst : Pos) (hp : bget bd pos.row pos.col = some { type := .p, color := c, hasMoved := hmv })
    (hmem : dst ∈ generatePseudoLegalMoves pos bd lm) :
    dst.row = pos.row + (if c = .w then (-1 : Int) else 1)
    ∨ dst.row = pos.row + 2 * (if c = .w then (-1 : Int) else 1) := by
  unfold generatePseudoLegalMoves at hmem
  rw [hp] at hmem
  simp only [List.mem_append] at hmem
  generalize hdir : (if c = Player.w then (-1 : Int) else 1) = dir at hmem ⊢
  generalize hsr : (if c = Player.w then (6 : Int) else 1) = startRow at hmem
  rcases hmem with (h | h) | h
  · split at h
    · rw [List.mem_cons] at h
      rcases h with rfl | h
      · left; rfl
      · split at h
        · simp only [List.mem_singleton] at h
          subst h; right; rfl
        · cases h
    · cases h
  · simp only [List.mem_flatMap, List.mem_cons, List.not_mem_nil, or_false,
      List.mem_singleton] at h
    obtain ⟨side, hside, h⟩ := h
    split at h
    · simp only [List.mem_singleton] at h
      subst h; left; rfl
    · cases h
  · split at h
    · cases h
    · split at h
      · simp only [List.mem_singleton] at h
        subst h; left; rfl
      · cases h

theorem gen_pawn_diag_empty (bd : Board) (lm : Option Move) (pos : Pos) (c : Player)
    (hmv : Bool) (dst : Pos)
    (hp : bget bd pos.row pos.col = some { type := .p, color := c, hasMoved := hmv })
    (hmem : dst ∈ generatePseudoLegalMoves pos bd lm)
    (hcol : dst.col ≠ pos.col)
    (hempty : bget bd dst.row dst.col = none) :
    ∃ last : Move, lm = some last
      ∧ sqTypeIs (bget bd last.to'.row last.to'.col) .p = true
      ∧ (last.from'.row - last.to'.row).natAbs = 2
      ∧ pos.row = last.to'.row
      ∧ (pos.col - last.to'.col).natAbs = 1
      ∧ dst = ⟨pos.row + (if c = .w then (-1 : Int) else 1), last.to'.col⟩ := by
  unfold generatePseudoLegalMoves at hmem
  rw [hp] at hmem
  simp only [List.mem_append] at hmem
  generalize hdir : (if c = Player.w then (-1 : Int) else 1) = dir at hmem ⊢
  generalize hsr : (if c = Player.w then (6 : Int) else 1) = startRow at hmem
  rcases hmem with (h | h) | h
  · exfalso
    split at h
    · rw [List.mem_cons] at h
      rcases h with rfl | h
      · exact hcol rfl
      · split at h
        · simp only [List.mem_singleton] at h
          subst h
          exact hcol rfl
        · cases h
    · cases h
  · exfalso
    simp only [List.mem_flatMap, List.mem_cons, List.not_mem_nil, or_false,
      List.mem_singleton] at h
    obtain ⟨side, hside, h⟩ := h
    split at h
    · rename_i hcond
      simp only [List.mem_singleton] at h
      subst h
      simp only [Bool.and_eq_true, Option.isSome_iff_exists] at hcond
      obtain ⟨pc, hpc⟩ := hcond.1.2
      rw [hempty] at hpc
      cases hpc
    · cases h
  · split at h
    · cases h
    · rename_i last
      split at h
      · rename_i hcond
        simp only [List.mem_singleton] at h
        simp only [Bool.and_eq_true, decide_eq_true_eq] at hcond
        exact ⟨last, rfl, hcond.1.1.1, hcond.1.1.2, hcond.1.2, hcond.2, h⟩
      · cases h

theorem movePiece_ep_clears (bd : Board) (m : Move) (c : Player) (hmv : Bool)
    (hWF : BoardWF bd)
    (hp : bget bd m.from'.row m.from'.col = some { type := .p, color := c, hasMoved := hmv })
    (hcol : m.from'.col ≠ m.to'.col)
    (hempty : bget bd m.to'.row m.to'.col = none)
    (hrow : m.from'.row ≠ m.to'.row) :
    bget (movePieceBoard m bd) m.from'.row m.to'.col = none := by
  unfold movePieceBoard
  rw [hp]
  simp only [reduceCtorEq, false_or, or_self, false_and, if_false]
  have hWF1 : BoardWF (bset bd m.from'.row m.from'.col
      (some { type := .p, color := c, hasMoved := hmv })) := boardWF_bset _ _ _ _ hWF
  have hb1to : bget (bset bd m.from'.row m.from'.col
      (some { type := .p, color := c, hasMoved := hmv })) m.to'.row m.to'.col = none := by
    rw [bget_bset _ _ _ _ hWF]
    rw [if_neg]
    · exact hempty
    · rintro ⟨h1, h2, h3⟩
      exact hrow h1
  rw [hb1to]
  simp only [Option.isNone_none, and_true, true_and, hcol, if_true, ne_eq,
    not_false_iff]
  rw [bget_bset _ _ _ _ (boardWF_bset _ _ _ _ (boardWF_bset _ _ _ _ hWF1))]
  rw [if_neg (by rintro ⟨h1, h2, h3⟩; exact hcol h2)]
  rw [bget_bset _ _ _ _ (boardWF_bset _ _ _ _ hWF1)]
  rw [if_neg (by rintro ⟨h1, h2, h3⟩; exact hrow h1.symm)]
  rw [bget_bset _ _ _ _ hWF1]
  by_cases hEv : isValid m.from'.row m.to'.col = true
  · rw [if_pos ⟨rfl, rfl, hEv⟩]
  · rw [if_neg (fun hh => hEv hh.2.2)]
    exact bget_eq_none_of_invalid _ _ _ hEv

/--
C4: (a) a pawn's diagonal move into an empty destination square (the
en-passant capture) is generated only when the recorded last move was a
two-square pawn advance landing adjacent to the pawn, i.e. the piece now on
the last move's destination is a pawn, the last move covered two rows, its
destination row equals the pawn's row and its destination column is adjacent
to the pawn's column — so the capture is absent once lastMove is any other
move; (b) applying such a column-changing pawn move into an empty square via
movePiece leaves the square on the origin's row at the destination's column
empty (the captured pawn is removed).
-/
theorem c4_en_passant :
    (∀ (bd : Board) (lm : Option Move) (pos : Pos) (c : Player) (hmv : Bool) (dst : Pos),
      bget bd pos.row pos.col = some { type := .p, color := c, hasMoved := hmv } →
      dst ∈ generatePseudoLegalMoves pos bd lm →
      dst.col ≠ pos.col →
      bget bd dst.row dst.col = none →
      ∃ last : Move, lm = some last
        ∧ sqTypeIs (bget bd last.to'.row last.to'.col) .p = true
        ∧ (last.from'.row - last.to'.row).natAbs = 2
        ∧ pos.row = last.to'.row
        ∧ (pos.col - last.to'.col).natAbs = 1
        ∧ dst = ⟨pos.row + (if c = .w then (-1 : Int) else 1), last.to'.col⟩)
    ∧ (∀ (bd : Board) (m : Move) (c : Player) (hmv : Bool),
      BoardWF bd →
      bget bd m.from'.row m.from'.col = some { type := .p, color := c, hasMoved := hmv } →
      m.from'.col ≠ m.to'.col →
      bget bd m.to'.row m.to'.col = none →
      m.from'.row ≠ m.to'.row →
      bget (movePieceBoard m bd) m.from'.row m.to'.col = none) :=
  ⟨fun bd lm pos c hmv dst hp hmem hcol hempty =>
    gen_pawn_diag_empty bd lm pos c hmv dst hp hmem hcol hempty,
   fun bd m c hmv hWF hp hcol hempty hrow =>
    movePiece_ep_clears bd m c hmv hWF hp hcol hempty hrow⟩

/--
A board one ply after Black's d7-d5 with a White pawn on e5: the en-passant
capture e5xd6 is available.
-/
def epBoard : Board :=
  bset (bset (bset (bset (List.replicate 8 (List.replicate 8 (none : Square))) 7 4
    (some { type := .k, color := .w, hasMoved := false })) 0 4
    (some { type := .k, color := .b, hasMoved := false })) 3 4
    (some { type := .p, color := .w })) 3 3
    (some { type := .p, color := .b })

/-- Witness for C4 at a concrete input. -/
theorem c4_en_passant_witness :
    (∃ last : Move, (some (⟨⟨1,3⟩,⟨3,3⟩⟩ : Move) : Option Move) = some last
        ∧ sqTypeIs (bget epBoard last.to'.row last.to'.col) .p = true
        ∧ (last.from'.row - last.to'.row).natAbs = 2
        ∧ (3 : Int) = last.to'.row
        ∧ ((4 : Int) - last.to'.col).natAbs = 1
        ∧ (⟨2,3⟩ : Pos) = ⟨(3 : Int) + (if Player.w = Player.w then (-1 : Int) else 1), last.to'.col⟩)
    ∧ bget (movePieceBoard ⟨⟨3,4⟩,⟨2,3⟩⟩ epBoard) 3 3 = none :=
  ⟨c4_en_passant.1 epBoard (some ⟨⟨1,3⟩,⟨3,3⟩⟩) ⟨3,4⟩ .w false ⟨2,3⟩
      (by decide) (by decide) (by decide) (by decide),
   c4_en_passant.2 epBoard ⟨⟨3,4⟩,⟨2,3⟩⟩ .w false
      (by decide) (by decide) (by decide) (by decide) (by decide)⟩

/--
C10: when a promotion square is pending and occupied, handlePromotion accepts
any piece kind pt (including king and pawn — pt is universally quantified
with no restriction to queen/rook/bishop/knight), replaces the piece at that
square by a piece of kind pt and the original piece's color with no hasMoved
flag, clears the pending promotion square, and runs the normal post-move
state update on the new board.
-/
theorem c10_handle_promotion (st : GBState) (sq : Pos) (orig : Piece) (pt : PieceType)
    (hsq : st.promotionSquare = some sq)
    (horig : bget st.board sq.row sq.col = some orig) :
    handlePromotion st pt =
      updateGameStateAfterMove { st with promotionSquare := none }
        (bset st.board sq.row sq.col (some { type := pt, color := orig.color }))
        st.lastMove
    ∧ (handlePromotion st pt).board
        = bset st.board sq.row sq.col (some { type := pt, color := orig.color })
    ∧ (handlePromotion st pt).promotionSquare = none := by
  simp [handlePromotion, hsq, horig]
  exact ⟨rfl, rfl⟩

/-- A board with a White pawn already moved to d8, awaiting promotion. -/
def promoBoard : Board :=
  bset (bset (bset (List.replicate 8 (List.replicate 8 (none : Square))) 7 4
    (some { type := .k, color := .w, hasMoved := false })) 0 4
    (some { type := .k, color := .b, hasMoved := false })) 0 3
    (some { type := .p, color := .w })

/-- The component state while the d8 promotion is pending. -/
def promoState : GBState :=
  { board := promoBoard
    currentPlayer := .w
    gameState := .promotion
    winner := none
    promotionSquare := some ⟨0, 3⟩
    lastMove := some ⟨⟨1, 3⟩, ⟨0, 3⟩⟩ }

/-- Witness for C10 at a concrete input, choosing kind 'k' (a second king). -/
theorem c10_handle_promotion_witness :
    (handlePromotion promoState .k).board
      = bset promoState.board 0 3 (some { type := .k, color := .w })
    ∧ (handlePromotion promoState .k).promotionSquare = none :=
  ⟨(c10_handle_promotion promoState ⟨0, 3⟩ { type := .p, color := .w } .k
      (by decide) (by decide)).2.1,
   (c10_handle_promotion promoState ⟨0, 3⟩ { type := .p, color := .w } .k
      (by decide) (by decide)).2.2⟩

theorem findMatchAux_eq_firstFit (rooms : Nat → Option Room) (user : User) (now : Int)
    (L : List Nat) :
    findMatchAux rooms user now L =
      match L.find? (fun i => claimable (rooms i) now || joinable (rooms i) user) with
      | some i =>
        if claimable (rooms i) now then .claimed i (createRoomRecord user now)
        else .joined i ⟨user, now, .playing⟩
      | none => .capacityError := by
  induction L with
  | nil => rfl
  | cons i rest ih =>
    rw [findMatchAux, List.find?_cons]
    by_cases hc : claimable (rooms i) now = true
    · simp [hc]
    · by_cases hj : joinable (rooms i) user = true
      · simp [hc, hj]
      · simp [hc, hj, ih]

/--
C6 (amended): findMatch scans slots nk-1 .. nk-20 in fixed increasing order
and acts on the FIRST slot that is claimable or joinable — claiming it (full
overwrite as white with a fresh initial snapshot) when claimable, otherwise
joining it (merging player2 / last_active_p2 and setting status to 'playing',
as black); if a full scan finds no such slot, matching fails with the capacity
error and no room is written.  (A claimable slot later in the scan does NOT
take precedence over an earlier joinable slot.)
-/
theorem c6_find_match_first_fit (rooms : Nat → Option Room) (user : User) (now : Int) :
    findMatch rooms user now = findMatchFirstFit rooms user now :=
  findMatchAux_eq_firstFit rooms user now (List.range' 1 MAX_ROOMS)

/-- Slot 1 holds a live waiting opponent; every other slot is empty. -/
def c6Rooms : Nat → Option Room := fun i =>
  if i = 1 then
    some { player1 := some ⟨"alice", "devA"⟩, last_active_p1 := some 100000,
           status := .waiting }
  else none

/--
C6 counterexample to the claim as stated: at time 100000 slot 1 is not
claimable but is joinable, and slot 2 is claimable (empty); findMatch joins
slot 1 rather than claiming the first claimable slot.
-/
theorem c6_counterexample :
    claimable (c6Rooms 1) 100000 = false
    ∧ claimable (c6Rooms 2) 100000 = true
    ∧ findMatch c6Rooms ⟨"bob", "devB"⟩ 100000
        = .joined 1 ⟨⟨"bob", "devB"⟩, 100000, .playing⟩ := by
  decide

/--
C7 (amended): whenever a peer observes the room with status 'playing', an
opponent heartbeat that is present, nonzero and older than the staleness
threshold, AND the shared game data does not already record a winner, its
evaluation writes gameState := 'checkmate' with winner := its own color and
opponentLeft := true; if a winner is already recorded the evaluation leaves
the game data unchanged.
-/
theorem c7_disconnect_writes_checkmate (room : Room) (myColor : Player) (gd : GameData)
    (now t : Int)
    (hstatus : room.status = .playing)
    (hopp : (if myColor = .w then room.last_active_p2 else room.last_active_p1) = some t)
    (ht : t ≠ 0)
    (hstale : now - t > ACTIVITY_TIMEOUT)
    (hw : gd.winner = none) :
    checkOpponentPresence room myColor gd now
      = { gd with winner := some myColor, gameState := .checkmate, opponentLeft := true } := by
  unfold checkOpponentPresence handleOpponentDisconnect
  rw [hopp]
  simp [hstatus, ht, hstale, hw]

/-- A playing room whose black-side heartbeat (last_active_p2) is stale. -/
def staleRoom : Room :=
  { player1 := some ⟨"alice", "devA"⟩
    player2 := some ⟨"bob", "devB"⟩
    last_active_p1 := some 40000
    last_active_p2 := some 1
    status := .playing }

/-- Shared game data that already records a winner (a finished game). -/
def finishedGameData : GameData :=
  { board := createInitialBoard
    currentPlayer := .w
    gameState := .checkmate
    winner := some .b
    lastMove := none
    promotionSquare := none }

/--
C7 counterexample to the claim as stated: the room is 'playing' and the
opponent's heartbeat is stale, yet because a winner is already recorded the
evaluation changes nothing — in particular it does not set winner to the
observer's own color and does not set the abandonment flag.
-/
theorem c7_counterexample :
    staleRoom.status = .playing
    ∧ staleRoom.last_active_p2 = some 1
    ∧ (40000 : Int) - 1 > ACTIVITY_TIMEOUT
    ∧ checkOpponentPresence staleRoom .w finishedGameData 40000 = finishedGameData
    ∧ (checkOpponentPresence staleRoom .w finishedGameData 40000).winner ≠ some Player.w
    ∧ (checkOpponentPresence staleRoom .w finishedGameData 40000).opponentLeft = false := by
  decide

/-- Shared game data of a game still in progress (no winner). -/
def inProgressGameData : GameData :=
  { board := createInitialBoard
    currentPlayer := .b
    gameState := .playing
    winner := none
    lastMove := none
    promotionSquare := none }

/-- Witness for C7 at a concrete input. -/
theorem c7_disconnect_writes_checkmate_witness :
    checkOpponentPresence staleRoom .w inProgressGameData 40000
      = { inProgressGameData with
          winner := some Player.w, gameState := .checkmate, opponentLeft := true } :=
  c7_disconnect_writes_checkmate staleRoom .w inProgressGameData 40000 1
    (by decide) (by decide) (by decide) (by decide) (by decide)

/-- Shared game data of a finished stalemate game: terminal but no winner. -/
def stalemateGameData : GameData :=
  { board := createInitialBoard
    currentPlayer := .b
    gameState := .stalemate
    winner := none
    lastMove := none
    promotionSquare := none }

/--
C5: evaluation of the code at the failing input.  A stalemate snapshot is
terminal, yet opponent-disconnect handling (guarded only on winner being set,
and stalemate records no winner) rewrites it to 'checkmate' with a winner and
the abandonment flag; resignation likewise overwrites gameState and winner of
a terminal snapshot unconditionally.
-/
theorem c5_terminal_not_frozen :
    stalemateGameData.gameState = .stalemate
    ∧ stalemateGameData.winner = none
    ∧ staleRoom.status = .playing
    ∧ (checkOpponentPresence staleRoom .w stalemateGameData 40000).gameState = .checkmate
    ∧ (checkOpponentPresence staleRoom .w stalemateGameData 40000).winner = some Player.w
    ∧ (checkOpponentPresence staleRoom .w stalemateGameData 40000).opponentLeft = true
    ∧ (resignGame stalemateGameData .b).gameState = .checkmate
    ∧ (resignGame stalemateGameData .b).winner = some Player.w := by
  decide

/-- The piece placement (kind and color) recorded on a square, forgetting the
hasMoved flag. -/
def stripSq : Square → Option (PieceType × Player) :=
  Option.map fun pc => (pc.type, pc.color)

theorem strip_moveSim_generic (bd : Board) (hWF : BoardWF bd) (F T : Pos) (p1 p0 : Piece)
    (ht : p1.type = p0.type) (hc : p1.color = p0.color) (r c : Int) :
    stripSq (bget (bset (bset (bset bd F.row F.col (some p1)) T.row T.col (some p1))
        F.row F.col none) r c)
      = stripSq (bget (bset (bset bd T.row T.col (some p0)) F.row F.col none) r c) := by
  have hW1 : BoardWF (bset bd F.row F.col (some p1)) := boardWF_bset _ _ _ _ hWF
  have hW2 : BoardWF (bset (bset bd F.row F.col (some p1)) T.row T.col (some p1)) :=
    boardWF_bset _ _ _ _ hW1
  have hW1' : BoardWF (bset bd T.row T.col (some p0)) := boardWF_bset _ _ _ _ hWF
  rw [bget_bset _ _ _ _ hW2, bget_bset _ _ _ _ hW1, bget_bset _ _ _ _ hWF,
    bget_bset _ _ _ _ hW1', bget_bset _ _ _ _ hWF]
  split_ifs <;> simp_all [stripSq]

theorem strip_moveSim_ep (bd : Board) (hWF : BoardWF bd) (F T : Pos) (p0 : Piece)
    (hcol : F.col ≠ T.col) (hrow : F.row ≠ T.row) (r c : Int) :
    stripSq (bget (bset (bset (bset (bset bd F.row F.col (some p0)) F.row T.col none)
        T.row T.col (some p0)) F.row F.col none) r c)
      = stripSq (bget (bset (bset (bset bd T.row T.col (some p0)) F.row F.col none)
          F.row T.col none) r c) := by
  have hW1 : BoardWF (bset bd F.row F.col (some p0)) := boardWF_bset _ _ _ _ hWF
  have hW2 : BoardWF (bset (bset bd F.row F.col (some p0)) F.row T.col none) :=
    boardWF_bset _ _ _ _ hW1
  have hW3 : BoardWF (bset (bset (bset bd F.row F.col (some p0)) F.row T.col none)
      T.row T.col (some p0)) := boardWF_bset _ _ _ _ hW2
  have hW1' : BoardWF (bset bd T.row T.col (some p0)) := boardWF_bset _ _ _ _ hWF
  have hW2' : BoardWF (bset (bset bd T.row T.col (some p0)) F.row F.col none) :=
    boardWF_bset _ _ _ _ hW1'
  rw [bget_bset _ _ _ _ hW3, bget_bset _ _ _ _ hW2, bget_bset _ _ _ _ hW1,
    bget_bset _ _ _ _ hWF, bget_bset _ _ _ _ hW2', bget_bset _ _ _ _ hW1',
    bget_bset _ _ _ _ hWF]
  split_ifs <;> simp_all [stripSq]

theorem strip_moveSim_castle (bd : Board) (hWF : BoardWF bd) (R0 tc nrc rc0 : Int)
    (p1 p0 rk : Piece) (ht : p1.type = p0.type) (hc : p1.color = p0.color)
    (hdist : (tc = 6 ∧ nrc = 5 ∧ rc0 = 7) ∨ (tc = 2 ∧ nrc = 3 ∧ rc0 = 0)) (r c : Int) :
    stripSq (bget (bset (bset (bset (bset (bset bd R0 4 (some p1)) R0 nrc
        (some { rk with hasMoved := true })) R0 rc0 none) R0 tc (some p1)) R0 4 none) r c)
      = stripSq (bget (bset (bset (bset (bset bd R0 tc (some p0)) R0 4 none) R0 nrc
          (some rk)) R0 rc0 none) r c) := by
  have hW1 : BoardWF (bset bd R0 4 (some p1)) := boardWF_bset _ _ _ _ hWF
  have hW2 : BoardWF (bset (bset bd R0 4 (some p1)) R0 nrc
      (some { rk with hasMoved := true })) := boardWF_bset _ _ _ _ hW1
  have hW3 : BoardWF (bset (bset (bset bd R0 4 (some p1)) R0 nrc
      (some { rk with hasMoved := true })) R0 rc0 none) := boardWF_bset _ _ _ _ hW2
  have hW4 : BoardWF (bset (bset (bset (bset bd R0 4 (some p1)) R0 nrc
      (some { rk with hasMoved := true })) R0 rc0 none) R0 tc (some p1)) :=
    boardWF_bset _ _ _ _ hW3
  have hW1' : BoardWF (bset bd R0 tc (some p0)) := boardWF_bset _ _ _ _ hWF
  have hW2' : BoardWF (bset (bset bd R0 tc (some p0)) R0 4 none) :=
    boardWF_bset _ _ _ _ hW1'
  have hW3' : BoardWF (bset (bset (bset bd R0 tc (some p0)) R0 4 none) R0 nrc
      (some rk)) := boardWF_bset _ _ _ _ hW2'
  rw [bget_bset _ _ _ _ hW4, bget_bset _ _ _ _ hW3, bget_bset _ _ _ _ hW2,
    bget_bset _ _ _ _ hW1, bget_bset _ _ _ _ hWF, bget_bset _ _ _ _ hW3',
    bget_bset _ _ _ _ hW2', bget_bset _ _ _ _ hW1', bget_bset _ _ _ _ hWF]
  rcases hdist with ⟨h1, h2, h3⟩ | ⟨h1, h2, h3⟩ <;> subst h1 <;> subst h2 <;> subst h3 <;>
    split_ifs <;> simp_all [stripSq] <;> omega

theorem gen_king_castle (bd : Board) (lm : Option Move) (pos : Pos) (c : Player)
    (hmv : Bool) (dst : Pos)
    (hp : bget bd pos.row pos.col = some { type := .k, color := c, hasMoved := hmv })
    (hmem : dst ∈ generatePseudoLegalMoves pos bd lm)
    (hab : (pos.col - dst.col).natAbs = 2) :
    pos.col = 4 ∧ dst.row = pos.row ∧ (dst.col = 6 ∨ dst.col = 2) := by
  have hv := (isValid_iff pos.row pos.col).mp (isValid_of_bget_some bd pos.row pos.col _ hp)
  unfold generatePseudoLegalMoves at hmem
  rw [hp] at hmem
  simp only [List.mem_append] at hmem
  rcases hmem with h | h
  · exfalso
    simp only [List.mem_flatMap, kingDirs, List.mem_cons, List.not_mem_nil, or_false] at h
    obtain ⟨d, hd, hmem⟩ := h
    rcases hd with rfl | rfl | rfl | rfl | rfl | rfl | rfl | rfl
    all_goals
      split at hmem
      · simp only [List.mem_singleton] at hmem
        subst hmem
        simp only at hab
        omega
      · cases hmem
  · split at h
    · rw [List.mem_append] at h
      rcases h with h | h
      · split at h
        · simp only [List.mem_singleton] at h
          subst h
          simp only at hab
          exact ⟨by omega, rfl, Or.inl rfl⟩
        · cases h
      · split at h
        · rename_i hcond
          simp only [List.mem_singleton] at h
          subst h
          simp only at hab
          have hcol : pos.col = 0 ∨ pos.col = 4 := by omega
          rcases hcol with h0 | h4
          · exfalso
            rw [← h0, hp] at hcond
            simp [sqTypeIs] at hcond
          · exact ⟨h4, rfl, Or.inr rfl⟩
        · cases h
    · cases h

theorem c9_pawn_case (bd : Board) (hWF : BoardWF bd) (lm : Option Move) (m : Move)
    (pc0 : Player) (pm0 : Bool)
    (hp : bget bd m.from'.row m.from'.col = some { type := .p, color := pc0, hasMoved := pm0 })
    (hmem : m.to' ∈ generatePseudoLegalMoves m.from' bd lm) (r c : Int) :
    stripSq (bget (movePieceBoard m bd) r c)
      = stripSq (bget (simulateMove m bd) r c) := by
  have hrow : m.from'.row ≠ m.to'.row := by
    have hd := gen_pawn_shape bd lm m.from' pc0 pm0 m.to' hp hmem
    rcases hd with h | h <;> cases pc0 <;> simp at h <;> omega
  have hep : Option.isNone (bget (bset bd m.from'.row m.from'.col
      (some { type := .p, color := pc0, hasMoved := pm0 })) m.to'.row m.to'.col)
      = Option.isNone (bget bd m.to'.row m.to'.col) := by
    rw [bget_bset _ _ _ _ hWF]
    by_cases hFT : m.from'.row = m.to'.row ∧ m.from'.col = m.to'.col
      ∧ isValid m.from'.row m.from'.col = true
    · rw [if_pos hFT]
      rw [← hFT.1, ← hFT.2.1, hp]
    · rw [if_neg hFT]
  unfold movePieceBoard simulateMove
  rw [hp]
  simp only [reduceCtorEq, false_or, or_self, false_and, and_false, if_false,
    Bool.false_eq_true, true_and, hep]
  by_cases hcond : m.from'.col ≠ m.to'.col ∧ Option.isNone (bget bd m.to'.row m.to'.col) = true
  · rw [if_pos hcond, if_pos hcond]
    exact strip_moveSim_ep bd hWF m.from' m.to' _ hcond.1 hrow r c
  · rw [if_neg hcond, if_neg hcond]
    exact strip_moveSim_generic bd hWF m.from' m.to' _ _ rfl rfl r c

theorem c9_king_case (bd : Board) (hWF : BoardWF bd) (lm : Option Move) (m : Move)
    (pc0 : Player) (pm0 : Bool)
    (hp : bget bd m.from'.row m.from'.col = some { type := .k, color := pc0, hasMoved := pm0 })
    (hmem : m.to' ∈ generatePseudoLegalMoves m.from' bd lm) (r c : Int) :
    stripSq (bget (movePieceBoard m bd) r c)
      = stripSq (bget (simulateMove m bd) r c) := by
  unfold movePieceBoard simulateMove
  rw [hp]
  cases pm0 <;>
    simp only [reduceCtorEq, false_or, or_self, false_and, and_false, if_false,
      Bool.false_eq_true, true_and, true_or, or_false, not_false_iff, and_true,
      not_true, Bool.true_eq_false, if_true, reduceIte] <;>
  (by_cases hab : (m.from'.col - m.to'.col).natAbs = 2
   · obtain ⟨hc4, hrowT, hcols⟩ := gen_king_castle bd lm m.from' pc0 _ m.to' hp hmem hab
     rw [if_pos hab, if_pos hab]
     rcases hcols with h6 | h2
     · have hgt : m.to'.col > m.from'.col := by omega
       rw [if_pos hgt, if_pos hgt]
       rw [bget_bset _ _ _ _ hWF, if_neg (by rintro ⟨h1, h2, h3⟩; omega)]
       rw [bget_bset _ _ _ _ (boardWF_bset _ _ _ _ hWF),
         if_neg (by rintro ⟨h1, h2, h3⟩; omega)]
       rw [bget_bset _ _ _ _ hWF, if_neg (by rintro ⟨h1, h2, h3⟩; omega)]
       cases hrk : bget bd m.from'.row 7 with
       | none =>
         exact strip_moveSim_generic bd hWF m.from' m.to' _ _ (by rfl) (by rfl) r c
       | some rook =>
         rw [hc4, hrowT, h6]
         exact strip_moveSim_castle bd hWF m.from'.row 6 5 7 _ _ rook (by rfl) (by rfl)
           (Or.inl ⟨rfl, rfl, rfl⟩) r c
     · have hngt : ¬ (m.to'.col > m.from'.col) := by omega
       rw [if_neg hngt, if_neg hngt]
       rw [bget_bset _ _ _ _ hWF, if_neg (by rintro ⟨h1, h2, h3⟩; omega)]
       rw [bget_bset _ _ _ _ (boardWF_bset _ _ _ _ hWF),
         if_neg (by rintro ⟨h1, h2, h3⟩; omega)]
       rw [bget_bset _ _ _ _ hWF, if_neg (by rintro ⟨h1, h2, h3⟩; omega)]
       cases hrk : bget bd m.from'.row 0 with
       | none =>
         exact strip_moveSim_generic bd hWF m.from' m.to' _ _ (by rfl) (by rfl) r c
       | some rook =>
         rw [hc4, hrowT, h2]
         exact strip_moveSim_castle bd hWF m.from'.row 2 3 0 _ _ rook (by rfl) (by rfl)
           (Or.inr ⟨rfl, rfl, rfl⟩) r c
   · rw [if_neg hab, if_neg hab]
     exact strip_moveSim_generic bd hWF m.from' m.to' _ _ (by rfl) (by rfl) r c)

/--
C9 (amended): for every 8x8 board and every move offered by move generation,
the board produced by movePiece and the board produced by simulateMove agree
at every square on piece kind and color (they can differ only in hasMoved
flags, which movePiece sets on moved kings/rooks and the castling rook while
simulateMove leaves them unchanged).
-/
theorem c9_apply_simulate_agree (bd : Board) (lm : Option Move) (m : Move) (piece0 : Piece)
    (hWF : BoardWF bd)
    (hp : bget bd m.from'.row m.from'.col = some piece0)
    (hmem : m.to' ∈ generatePseudoLegalMoves m.from' bd lm) (r c : Int) :
    stripSq (bget (movePieceBoard m bd) r c)
      = stripSq (bget (simulateMove m bd) r c) := by
  obtain ⟨pt, pc0, pm0⟩ := piece0
  cases pt with
  | p => exact c9_pawn_case bd hWF lm m pc0 pm0 hp hmem r c
  | k => exact c9_king_case bd hWF lm m pc0 pm0 hp hmem r c
  | r =>
    unfold movePieceBoard simulateMove
    rw [hp]
    cases pm0 <;>
      simp only [reduceCtorEq, false_or, or_false, or_self, false_and, and_false, if_false,
        Bool.false_eq_true, true_and, true_or, not_false_iff, and_true,
        not_true, Bool.true_eq_false, if_true, reduceIte] <;>
      exact strip_moveSim_generic bd hWF m.from' m.to' _ _ (by rfl) (by rfl) r c
  | n =>
    unfold movePieceBoard simulateMove
    rw [hp]
    simp only [reduceCtorEq, false_or, or_self, false_and, and_false, if_false,
      Bool.false_eq_true]
    exact strip_moveSim_generic bd hWF m.from' m.to' _ _ (by rfl) (by rfl) r c
  | b =>
    unfold movePieceBoard simulateMove
    rw [hp]
    simp only [reduceCtorEq, false_or, or_self, false_and, and_false, if_false,
      Bool.false_eq_true]
    exact strip_moveSim_generic bd hWF m.from' m.to' _ _ (by rfl) (by rfl) r c
  | q =>
    unfold movePieceBoard simulateMove
    rw [hp]
    simp only [reduceCtorEq, false_or, or_self, false_and, and_false, if_false,
      Bool.false_eq_true]
    exact strip_moveSim_generic bd hWF m.from' m.to' _ _ (by rfl) (by rfl) r c

/--
C9 counterexample to the claim as stated: moving the never-moved white king
one square is offered by move generation, but movePiece marks it hasMoved
while simulateMove does not, so the two boards are not equal.
-/
theorem c9_counterexample :
    (⟨6, 4⟩ : Pos) ∈ generatePseudoLegalMoves ⟨7, 4⟩ twoKingsBoard none
    ∧ movePieceBoard ⟨⟨7, 4⟩, ⟨6, 4⟩⟩ twoKingsBoard
        ≠ simulateMove ⟨⟨7, 4⟩, ⟨6, 4⟩⟩ twoKingsBoard := by
  decide

/-- Witness for the amended C9 at a concrete input. -/
theorem c9_apply_simulate_agree_witness :
    stripSq (bget (movePieceBoard ⟨⟨7, 4⟩, ⟨6, 4⟩⟩ twoKingsBoard) 6 4)
      = stripSq (bget (simulateMove ⟨⟨7, 4⟩, ⟨6, 4⟩⟩ twoKingsBoard) 6 4) :=
  c9_apply_simulate_agree twoKingsBoard none ⟨⟨7, 4⟩, ⟨6, 4⟩⟩
    { type := .k, color := .w, hasMoved := false }
    (by decide) (by decide) (by decide) 6 4
